import Mathlib

/-!
Shallow embedding of the page-translation pipeline of
`src/sexy_logger/SexyLogger.py` (class `PDFTranslator`).

Python strings are modelled as lists of Unicode code points (`Str`);
byte strings as lists of byte values.  The two remote backends
(`config.cg.translate_text` and `config.cg.chat`) and the Aspose
document engine are external collaborators and appear as parameters.
Every definition in this file is translated from the Python source;
line numbers in doc comments refer to `src/sexy_logger/SexyLogger.py`.
-/

namespace SexyLoggerModel

/-- Python `str`: a finite sequence of Unicode code points. -/
abbrev Str : Type := List Nat

/-- Embed a Lean string literal into the code-point model. -/
def lit (s : String) : Str := s.toList.map Char.toNat

/-- The whitespace code points recognised by Python `str.split()` and
`str.strip()`: ASCII whitespace (TAB 9, LF 10, VT 11, FF 12, CR 13,
SPACE 32), the C1 separators 28-31, NEL 133, NBSP 160, and the Unicode
space separators (5760, 8192-8202, 8232, 8233, 8239, 8287, 12288). -/
def pyIsSpace (c : Nat) : Bool :=
  c == 9 || c == 10 || c == 11 || c == 12 || c == 13 ||
  c == 28 || c == 29 || c == 30 || c == 31 || c == 32 ||
  c == 133 || c == 160 || c == 5760 ||
  (8192 ≤ c && c ≤ 8202) || c == 8232 || c == 8233 ||
  c == 8239 || c == 8287 || c == 12288

/-- Python `text.replace(c, "")` for a single-character pattern `c`:
every occurrence of the character is removed. -/
def pyReplaceCharEmpty (c : Nat) (t : Str) : Str := t.filter (fun x => x != c)

/-- One `foldr` step of whitespace chunking: a whitespace character opens a
new (empty) chunk, any other character is prepended to the current chunk.
The accumulator always holds at least one chunk, so the `[]` branch of the
inner match is unreachable. -/
def splitStep (c : Nat) (acc : List Str) : List Str :=
  if pyIsSpace c then [] :: acc
  else
    match acc with
    | [] => [[c]]
    | w :: ws => (c :: w) :: ws

/-- The maximal runs of non-whitespace characters of `t`, with the (possibly
empty) chunks between consecutive whitespace characters kept. -/
def splitChunks (t : Str) : List Str := t.foldr splitStep [[]]

/-- Python `text.split()` with no arguments: split on runs of whitespace
and drop all empty chunks (so leading/trailing whitespace is ignored). -/
def pySplit (t : Str) : List Str := (splitChunks t).filter (fun w => !w.isEmpty)

/-- Python `" ".join(words)`: interleave a single SPACE (32) between
consecutive words. -/
def joinSp : List Str → Str
  | [] => []
  | [w] => w
  | w :: ws => w ++ 32 :: joinSp ws

/-- Python `text.strip()` with no arguments: remove leading and trailing
whitespace characters. -/
def pyStrip (t : Str) : Str :=
  ((t.dropWhile pyIsSpace).reverse.dropWhile pyIsSpace).reverse

/-- The `unwanted_characters = "|•"` of `preprocess_text` (line 136). -/
def unwanted_characters : Str := lit "|•"

/-- `PDFTranslator.preprocess_text` (lines 129-146): remove the unwanted
characters one by one (the `for char in unwanted_characters` loop of
`text.replace(char, "")` calls), collapse every whitespace sequence to a
single space via `" ".join(text.split()).strip()`, and return the empty
string when nothing remains (`return text if text else ""`). -/
def preprocess_text (text : Str) : Str :=
  let cleaned := unwanted_characters.foldl (fun acc c => pyReplaceCharEmpty c acc) text
  let normalized := pyStrip (joinSp (pySplit cleaned))
  if normalized.isEmpty then [] else normalized

/-! ### decode_unicode_escapes (lines 63-70)

`text.encode("utf-8").decode("unicode_escape")`: the text is encoded to
UTF-8 bytes and those bytes are re-decoded with the `unicode_escape`
codec, which maps every non-backslash byte to the code point of the same
value (Latin-1) and interprets backslash escape sequences. -/

/-- The Python exceptions (and exception sites) relevant to the claims.
Each constructor records one distinct failure kind of the source:
`typeError` is the runtime TypeError raised e.g. by subscripting a `str`
with a `str` key (line 458) or by `in` on a non-container;
`keyError` is the `KeyError` of `parse_llm_response` (line 404);
`emptyResponseError` is the `Exception` of line 391;
`decodeError` is the `Exception` of line 398 wrapping `json.JSONDecodeError`;
`mismatchError` is the `Exception` of line 459
("Original text does not match in the received translation from LLM.");
`unicodeDecodeError` is the `UnicodeDecodeError` that
`bytes.decode("unicode_escape")` raises on a malformed escape. -/
inductive PyErr where
  | typeError
  | keyError
  | emptyResponseError
  | decodeError
  | mismatchError
  | unicodeDecodeError
deriving DecidableEq

/-- UTF-8 encoding of one code point (standard 1-4 byte ranges). -/
def utf8EncodeChar (c : Nat) : List Nat :=
  if c < 128 then [c]
  else if c < 2048 then [192 + c / 64, 128 + c % 64]
  else if c < 65536 then [224 + c / 4096, 128 + (c / 64) % 64, 128 + c % 64]
  else [240 + c / 262144, 128 + (c / 4096) % 64, 128 + (c / 64) % 64, 128 + c % 64]

/-- Python `text.encode("utf-8")`: the concatenated UTF-8 bytes of the
code points (the inputs of interest contain no surrogates). -/
def pyUtf8Encode (s : Str) : List Nat := (s.map utf8EncodeChar).flatten

/-- True for the octal digit bytes "0"-"7". -/
def isOctDigit (c : Nat) : Bool := 48 ≤ c && c ≤ 55

/-- Hexadecimal digit value of a byte, if it is a hex digit. -/
def hexDigitVal (c : Nat) : Option Nat :=
  if 48 ≤ c && c ≤ 57 then some (c - 48)
  else if 65 ≤ c && c ≤ 70 then some (c - 55)
  else if 97 ≤ c && c ≤ 102 then some (c - 87)
  else none

/-- Decode the bytes following one backslash under the `unicode_escape`
codec: the produced code points and the remaining bytes.  Handles the
single-character escapes, line continuation, up to three octal digits,
`\xhh`, `\uhhhh` and `\Uhhhhhhhh`; a lone trailing backslash, a short or
non-hex `\x`/`\u`/`\U`, `\U` above 0x10FFFF and the `\N` named escapes
(which need the Unicode name database) raise `UnicodeDecodeError`.  Any
other byte after the backslash is kept verbatim together with the
backslash, as CPython does for an unrecognised escape. -/
def escSeq : List Nat → Except PyErr (List Nat × List Nat)
  | [] => .error .unicodeDecodeError
  | 10 :: r => .ok ([], r)
  | 92 :: r => .ok ([92], r)
  | 39 :: r => .ok ([39], r)
  | 34 :: r => .ok ([34], r)
  | 97 :: r => .ok ([7], r)
  | 98 :: r => .ok ([8], r)
  | 102 :: r => .ok ([12], r)
  | 110 :: r => .ok ([10], r)
  | 114 :: r => .ok ([13], r)
  | 116 :: r => .ok ([9], r)
  | 118 :: r => .ok ([11], r)
  | 120 :: a :: b :: r =>
    match hexDigitVal a, hexDigitVal b with
    | some x, some y => .ok ([x * 16 + y], r)
    | _, _ => .error .unicodeDecodeError
  | 120 :: _ => .error .unicodeDecodeError
  | 117 :: a :: b :: c :: d :: r =>
    match hexDigitVal a, hexDigitVal b, hexDigitVal c, hexDigitVal d with
    | some x, some y, some z, some w => .ok ([x * 4096 + y * 256 + z * 16 + w], r)
    | _, _, _, _ => .error .unicodeDecodeError
  | 117 :: _ => .error .unicodeDecodeError
  | 85 :: a :: b :: c :: d :: e :: f :: g :: h :: r =>
    match hexDigitVal a, hexDigitVal b, hexDigitVal c, hexDigitVal d,
          hexDigitVal e, hexDigitVal f, hexDigitVal g, hexDigitVal h with
    | some x1, some x2, some x3, some x4, some x5, some x6, some x7, some x8 =>
      let v := ((((((x1 * 16 + x2) * 16 + x3) * 16 + x4) * 16 + x5) * 16 + x6) * 16 + x7) * 16 + x8
      if v ≤ 1114111 then .ok ([v], r) else .error .unicodeDecodeError
    | _, _, _, _, _, _, _, _ => .error .unicodeDecodeError
  | 85 :: _ => .error .unicodeDecodeError
  | 78 :: _ => .error .unicodeDecodeError
  | c :: r =>
    if isOctDigit c then
      match r with
      | d :: e :: r2 =>
        if isOctDigit d && isOctDigit e then
          .ok ([(c - 48) * 64 + (d - 48) * 8 + (e - 48)], r2)
        else if isOctDigit d then .ok ([(c - 48) * 8 + (d - 48)], e :: r2)
        else .ok ([c - 48], d :: e :: r2)
      | [d] => if isOctDigit d then .ok ([(c - 48) * 8 + (d - 48)], []) else .ok ([c - 48], [d])
      | [] => .ok ([c - 48], [])
    else .ok ([92, c], r)

/-- Fuel-indexed worker for `unicode_escape` decoding; the fuel is an upper
bound on the number of bytes still to be consumed, so with fuel equal to
the input length the zero-fuel branch is unreachable. -/
def uedF : Nat → List Nat → Except PyErr Str
  | 0, _ => .ok []
  | _ + 1, [] => .ok []
  | fuel + 1, 92 :: rest =>
    match escSeq rest with
    | .error e => .error e
    | .ok (cs, rest2) => (uedF fuel rest2).map (fun t => cs ++ t)
  | fuel + 1, b :: rest => (uedF fuel rest).map (fun t => b :: t)

/-- Python `bytes.decode("unicode_escape")`: non-backslash bytes become the
code point of the same value (Latin-1); backslash sequences per `escSeq`. -/
def unicodeEscapeDecode (bs : List Nat) : Except PyErr Str := uedF bs.length bs

/-- `decode_unicode_escapes` (lines 63-70):
`text.encode("utf-8").decode("unicode_escape")`. -/
def decode_unicode_escapes (text : Str) : Except PyErr Str :=
  unicodeEscapeDecode (pyUtf8Encode text)

/-! ### A model of `json.loads` (Python standard library)

The retry loop (line 291) and `parse_llm_response` (line 394) validate the
chat responses with `json.loads`.  It is modelled by a recursive-descent
parser over code points returning `none` exactly where `json.loads` raises
`json.JSONDecodeError`.  Numbers are kept as their lexemes (their numeric
value is never consumed by the code under verification); the `\uXXXX`
escapes inside JSON strings are kept as single code units. -/

/-- Parsed JSON values. -/
inductive Json where
  | null
  | jbool (b : Bool)
  | num (lexeme : Str)
  | jstr (s : Str)
  | arr (elems : List Json)
  | obj (members : List (Str × Json))

/-- Skip the JSON whitespace bytes (SPACE, TAB, LF, CR). -/
def jsonSkipWs (s : Str) : Str :=
  s.dropWhile (fun c => c == 32 || c == 9 || c == 10 || c == 13)

/-- Parse the remainder of a JSON string after the opening quote: the
decoded contents and the input after the closing quote.  Escapes per RFC
8259; an unescaped control character or an unterminated string fails. -/
def parseJString : Str → Option (Str × Str)
  | [] => none
  | 34 :: r => some ([], r)
  | 92 :: 34 :: r => (parseJString r).map (fun p => (34 :: p.1, p.2))
  | 92 :: 92 :: r => (parseJString r).map (fun p => (92 :: p.1, p.2))
  | 92 :: 47 :: r => (parseJString r).map (fun p => (47 :: p.1, p.2))
  | 92 :: 98 :: r => (parseJString r).map (fun p => (8 :: p.1, p.2))
  | 92 :: 102 :: r => (parseJString r).map (fun p => (12 :: p.1, p.2))
  | 92 :: 110 :: r => (parseJString r).map (fun p => (10 :: p.1, p.2))
  | 92 :: 114 :: r => (parseJString r).map (fun p => (13 :: p.1, p.2))
  | 92 :: 116 :: r => (parseJString r).map (fun p => (9 :: p.1, p.2))
  | 92 :: 117 :: a :: b :: c :: d :: r =>
    match hexDigitVal a, hexDigitVal b, hexDigitVal c, hexDigitVal d with
    | some x, some y, some z, some w =>
      (parseJString r).map (fun p => ((x * 4096 + y * 256 + z * 16 + w) :: p.1, p.2))
    | _, _, _, _ => none
  | 92 :: _ => none
  | c :: r => if c < 32 then none else (parseJString r).map (fun p => (c :: p.1, p.2))

/-- True for the decimal digit bytes "0"-"9". -/
def isDigit (c : Nat) : Bool := 48 ≤ c && c ≤ 57

/-- Optional fraction part of a JSON number ("." plus at least one digit);
returns the consumed lexeme (possibly empty) and the rest. -/
def parseFracPart : Str → Option (Str × Str)
  | 46 :: r =>
    let ds := r.takeWhile isDigit
    if ds.isEmpty then none else some (46 :: ds, r.dropWhile isDigit)
  | s => some ([], s)

/-- Optional exponent part of a JSON number ("e"/"E", optional sign, at
least one digit); returns the consumed lexeme and the rest. -/
def parseExpPart : Str → Option (Str × Str)
  | c :: r =>
    if c == 101 || c == 69 then
      let sr : Str × Str :=
        match r with
        | 43 :: r2 => ([43], r2)
        | 45 :: r2 => ([45], r2)
        | _ => ([], r)
      let ds := sr.2.takeWhile isDigit
      if ds.isEmpty then none else some (c :: (sr.1 ++ ds), sr.2.dropWhile isDigit)
    else some ([], c :: r)
  | [] => some ([], [])

/-- Parse a JSON number (RFC 8259 grammar, no leading zeros), returning its
lexeme and the rest of the input. -/
def parseJNumber (s : Str) : Option (Str × Str) :=
  let sg : Str × Str :=
    match s with
    | 45 :: r => ([45], r)
    | _ => ([], s)
  let intPart : Option (Str × Str) :=
    match sg.2 with
    | 48 :: r => some ([48], r)
    | c :: r => if 49 ≤ c && c ≤ 57 then some (c :: r.takeWhile isDigit, r.dropWhile isDigit) else none
    | [] => none
  match intPart with
  | none => none
  | some (ip, r) =>
    match parseFracPart r with
    | none => none
    | some (fp, r1) =>
      match parseExpPart r1 with
      | none => none
      | some (ep, r2) => some (sg.1 ++ ip ++ fp ++ ep, r2)

/-- The three grammatical positions of the recursive-descent parser:
a single value, the item list of an array, the member list of an object. -/
inductive PMode where
  | value
  | itemsMode
  | fieldsMode

/-- Intermediate parse results for the three modes. -/
inductive PRes where
  | val (j : Json)
  | items (xs : List Json)
  | fields (fs : List (Str × Json))

/-- Fuel-indexed recursive-descent JSON parser.  In `value` mode the input
must start (whitespace already skipped) with a JSON value; the two list
modes parse the comma-separated interiors up to and including the closing
bracket or brace.  The fuel bounds the recursion depth; the wrapper
`json_loads` supplies more fuel than any input of that length can use. -/
def parseJ : Nat → PMode → Str → Option (PRes × Str)
  | 0, _, _ => none
  | fuel + 1, .value, s =>
    match s with
    | 110 :: 117 :: 108 :: 108 :: r => some (.val .null, r)
    | 116 :: 114 :: 117 :: 101 :: r => some (.val (.jbool true), r)
    | 102 :: 97 :: 108 :: 115 :: 101 :: r => some (.val (.jbool false), r)
    | 34 :: r =>
      match parseJString r with
      | some (str, r1) => some (.val (.jstr str), r1)
      | none => none
    | 123 :: r =>
      let r1 := jsonSkipWs r
      match r1 with
      | 125 :: r2 => some (.val (.obj []), r2)
      | _ =>
        match parseJ fuel .fieldsMode r1 with
        | some (.fields fs, r2) => some (.val (.obj fs), r2)
        | _ => none
    | 91 :: r =>
      let r1 := jsonSkipWs r
      match r1 with
      | 93 :: r2 => some (.val (.arr []), r2)
      | _ =>
        match parseJ fuel .itemsMode r1 with
        | some (.items xs, r2) => some (.val (.arr xs), r2)
        | _ => none
    | _ =>
      match parseJNumber s with
      | some (lx, r) => some (.val (.num lx), r)
      | none => none
  | fuel + 1, .itemsMode, s =>
    match parseJ fuel .value s with
    | some (.val j, r) =>
      match jsonSkipWs r with
      | 44 :: r2 =>
        match parseJ fuel .itemsMode (jsonSkipWs r2) with
        | some (.items xs, r3) => some (.items (j :: xs), r3)
        | _ => none
      | 93 :: r2 => some (.items [j], r2)
      | _ => none
    | _ => none
  | fuel + 1, .fieldsMode, s =>
    match s with
    | 34 :: r =>
      match parseJString r with
      | some (k, r1) =>
        match jsonSkipWs r1 with
        | 58 :: r2 =>
          match parseJ fuel .value (jsonSkipWs r2) with
          | some (.val v, r3) =>
            match jsonSkipWs r3 with
            | 44 :: r4 =>
              match parseJ fuel .fieldsMode (jsonSkipWs r4) with
              | some (.fields fs, r5) => some (.fields ((k, v) :: fs), r5)
              | _ => none
            | 125 :: r4 => some (.fields [(k, v)], r4)
            | _ => none
          | _ => none
        | _ => none
      | none => none
    | _ => none

/-- Model of `json.loads`: parse one JSON value, demand that only
whitespace follows, and return `none` where `json.loads` raises
`json.JSONDecodeError`. -/
def json_loads (s : Str) : Option Json :=
  match parseJ (2 * s.length + 2) .value (jsonSkipWs s) with
  | some (.val j, r) => if (jsonSkipWs r).isEmpty then some j else none
  | _ => none

/-- Substring test on code-point strings (Python `needle in hay` for two
`str` values). -/
def strIsInfix (needle hay : Str) : Bool :=
  hay.tails.any (fun t => needle.isPrefixOf t)

/-- Python `key in v` for a parsed JSON value `v` and a `str` key:
key membership for a dict, element equality for a list (only `str`
elements can equal a `str`), substring test for a `str`, and `TypeError`
for the non-container values. -/
def pyContains (v : Json) (key : Str) : Except PyErr Bool :=
  match v with
  | .obj fields => .ok (fields.any (fun kv => kv.1 == key))
  | .arr xs =>
    .ok (xs.any (fun x =>
      match x with
      | .jstr s => s == key
      | _ => false))
  | .jstr s => .ok (strIsInfix key s)
  | _ => .error .typeError

/-- The `"text_fragments"` key demanded by `parse_llm_response` (line 401). -/
def textFragmentsKey : Str := lit "text_fragments"

/-- `PDFTranslator.parse_llm_response` (lines 377-406) on a string
argument: an empty-after-strip response raises `Exception` (line 391), a
response `json.loads` rejects raises `Exception` (line 398), a parsed
value without the `"text_fragments"` key raises `KeyError` (line 404, via
the `in` test whose own `TypeError` on a non-container propagates), and
otherwise the parsed value is returned. -/
def parse_llm_response (llm_response : Str) : Except PyErr Json :=
  if (pyStrip llm_response).isEmpty then .error .emptyResponseError
  else
    match json_loads llm_response with
    | none => .error .decodeError
    | some d =>
      match pyContains d textFragmentsKey with
      | .error e => .error e
      | .ok true => .ok d
      | .ok false => .error .keyError

/-! ### send_page_to_llm (lines 240-316): the alignment retry loop -/

/-- `max_retries = 2` (line 273). -/
def max_retries : Nat := 2

/-- The corrective prompt installed after an invalid response (line 308). -/
def correctivePrompt : Str :=
  lit "Please correct your JSON response, the structure is either incomplete or wrong."

/-- What `send_page_to_llm` hands back to its caller: the parsed response
on a `json.loads` success (line 298), or the decoded but unparsed response
text after the retry budget is spent (line 316; the `raise` on line 314 is
commented out in the source). -/
inductive LlmOutcome where
  | parsed (d : Json)
  | raw (s : Str)

/-- The body of the `for attempt in range(max_retries + 1)` loop of
`send_page_to_llm` (lines 275-316), indexed by the number of attempts
still allowed.  Each iteration calls the chat backend once with the
current prompt and chat id (line 283), decodes the response with
`decode_unicode_escapes` (line 284; a decoding error propagates as an
uncaught exception), tries `json.loads` (line 291) and returns the parsed
data on success; on failure it replaces the prompt with the corrective
instruction, threads the returned chat id, and retries, or — when this
was the last attempt — falls out of the loop and returns the decoded
invalid text (line 316).  The second component collects the raw backend
responses, one per chat call; the zero-fuel branch is unreachable because
the loop always runs at least one attempt. -/
def send_loop (chat : Str → Str → Str × Str) :
    Str → Str → Nat → (Except PyErr LlmOutcome) × List Str
  | _, _, 0 => (.ok (.raw []), [])
  | prompt, chatId, attemptsLeft + 1 =>
    match chat prompt chatId with
    | (resp0, chatId2) =>
      match decode_unicode_escapes resp0 with
      | .error e => (.error e, [resp0])
      | .ok resp =>
        match json_loads resp with
        | some d => (.ok (.parsed d), [resp0])
        | none =>
          match attemptsLeft with
          | 0 => (.ok (.raw resp), [resp0])
          | m + 1 =>
            match send_loop chat correctivePrompt chatId2 (m + 1) with
            | (out, rs) => (out, resp0 :: rs)

/-- `PDFTranslator.send_page_to_llm` (lines 240-316), abstracted over the
chat backend and the initial prompt (the prompt text assembled on lines
253-271 from the serialized page data; its content never influences the
control flow).  The chat id starts empty (line 274).  Returns the outcome
and the list of raw responses received, one entry per chat call. -/
def send_page_to_llm (chat : Str → Str → Str × Str) (prompt0 : Str) :
    (Except PyErr LlmOutcome) × List Str :=
  send_loop chat prompt0 [] (max_retries + 1)

/-! ### jsonify_page_fragments (lines 318-349): the Request Builder -/

/-- One entry of the outgoing `text_fragments` list (lines 334-340). -/
structure ReqFragment where
  original_text_fragment : Str
  translated_text_fragment : Str
deriving DecidableEq

/-- The `page_context` object (lines 330-333). -/
structure PageContext where
  original : Str
  translated : Str
deriving DecidableEq

/-- The `page_data` object (lines 328-341). -/
structure PageData where
  page_number : Nat
  page_context : PageContext
  text_fragments : List ReqFragment
deriving DecidableEq

/-- The JSON structure returned by `jsonify_page_fragments` (line 327). -/
structure TranslationRequest where
  page_data : PageData
deriving DecidableEq

/-- `PDFTranslator.jsonify_page_fragments` (lines 318-349): wrap the page
number, the original/translated page context and the original fragments
into the wire structure; every `translated_text_fragment` is the empty
placeholder string for the LLM to fill (line 337). -/
def jsonify_page_fragments (page_number : Nat) (original_page_context : Str)
    (translated_page_text : Str) (original_text_fragments : List Str) :
    TranslationRequest :=
  { page_data :=
    { page_number := page_number
      page_context :=
        { original := original_page_context
          translated := translated_page_text }
      text_fragments :=
        original_text_fragments.map (fun fragment =>
          { original_text_fragment := fragment
            translated_text_fragment := [] }) } }

/-! ### Fragments and reintegration -/

/-- One fragment dict of a parsed alignment response
(`translated_page_data["text_fragments"][i]`): the two keys the
reintegration code reads, each `none` when the key is absent from the
dict (the `in` checks on lines 372 and 456). -/
structure RespFragment where
  original_text_fragment : Option Str
  translated_text_fragment : Option Str
deriving DecidableEq

/-- An Aspose `TextFragment` owned by the document: its mutable `text`
plus the engine-managed placement and formatting state, which the code
never assigns (`x_indent`/`y_indent` as read by `position_to_dict`,
lines 232-238, and the remaining style attributes abstracted as one
opaque field). -/
structure TextFragment where
  text : Str
  x_indent : Nat
  y_indent : Nat
  formatting : Str
deriving DecidableEq

/-- `PDFTranslator.reintegrate_translated_fragments`, per-page body
(lines 366-375): the outer loop walks the pages of `reassembled_pages`;
for one page it zips the document fragments with the response fragment
dicts and, whenever the dict has a `"translated_text_fragment"` key
(line 372), assigns that value to `fragment.text` (line 373).  The
in-place mutation of the page is modelled by returning the page fragment
list after the loop: the zipped prefix possibly updated, everything past
the zip untouched.  The function raises nothing. -/
def reintegrate_translated_fragments (fragments : List TextFragment)
    (respFrags : List RespFragment) : List TextFragment :=
  ((fragments.zip respFrags).map (fun p =>
    match p.2.translated_text_fragment with
    | some t => { p.1 with text := t }
    | none => p.1))
  ++ fragments.drop respFrags.length

/-- A value held in the `original_text_fragments["text_fragments"]` list
that `process_page` zips over on line 454.  `extract_text_fragments_from_page`
only ever appends plain strings (line 197), but the loop body on lines
456-461 subscripts the element with the string key `"text_fragment"`, an
operation whose Python semantics depend on the runtime type: the model
therefore keeps the type distinction. -/
inductive PyFragment where
  | str (s : Str)
  | dict (entries : List (Str × Str))
deriving DecidableEq

/-- Python subscript read `fragment["text_fragment"]`: on a `str` value
Python raises `TypeError` (string indices must be integers); on a dict it
returns the value or raises `KeyError`. -/
def PyFragment.subscript : PyFragment → Str → Except PyErr Str
  | .str _, _ => .error .typeError
  | .dict es, key =>
    match es.find? (fun kv => kv.1 == key) with
    | some kv => .ok kv.2
    | none => .error .keyError

/-- Python subscript assignment `fragment["text_fragment"] = v`: a
`TypeError` on a `str` (strings are immutable and not key-indexable); on
a dict the binding is replaced or added. -/
def PyFragment.setItem : PyFragment → Str → Str → Except PyErr PyFragment
  | .str _, _, _ => .error .typeError
  | .dict es, key, v =>
    if es.any (fun kv => kv.1 == key) then
      .ok (.dict (es.map (fun kv => if kv.1 == key then (kv.1, v) else kv)))
    else .ok (.dict (es ++ [(key, v)]))

/-- `PDFTranslator.extract_text_fragments_from_page`, fragment-list part
(lines 189-203): walk the absorber fragments (their raw `fragment.text`
given here, `none` standing for a `None` text), keep only the truthy ones
(line 195 skips `None` and the empty string), preprocess each kept text
(line 196) and collect the resulting plain strings (line 197). -/
def extract_text_fragments_from_page (rawTexts : List (Option Str)) : List PyFragment :=
  (rawTexts.filterMap (fun r =>
    match r with
    | none => none
    | some t => if t.isEmpty then none else some t)).map
  (fun t => .str (preprocess_text t))

/-- Step 6 of `PDFTranslator.process_page` (lines 452-463): zip the
extracted fragment list with the response fragment dicts; for each pair
whose dict has both keys (line 456), read `fragment["text_fragment"]`,
raise the mismatch `Exception` of line 459 when it differs from the
claimed `original_text_fragment`, and otherwise assign the translated
text (line 461) — the subscript operations following `PyFragment`
semantics, so their `TypeError` on a string fragment aborts the loop.
Returns the fragment list as mutated so far and the raised exception if
any (`none` when the loop completes). -/
def process_page_step6 : List PyFragment → List RespFragment →
    List PyFragment × Option PyErr
  | fs, [] => (fs, none)
  | [], _ => ([], none)
  | f :: fs, tf :: tfs =>
    match tf.translated_text_fragment, tf.original_text_fragment with
    | some translated, some original =>
      match f.subscript (lit "text_fragment") with
      | .error e => (f :: fs, some e)
      | .ok cur =>
        if cur != original then (f :: fs, some .mismatchError)
        else
          match f.setItem (lit "text_fragment") translated with
          | .error e => (f :: fs, some e)
          | .ok f2 =>
            let rest := process_page_step6 fs tfs
            (f2 :: rest.1, rest.2)
    | _, _ =>
      let rest := process_page_step6 fs tfs
      (f :: rest.1, rest.2)

/-! ### process_translation (lines 467-499): the Page Scheduler -/

/-- The two externally visible scheduler actions after the page tasks:
the `asyncio.gather` barrier completing (line 486) and the single
`save_document` call (line 494). -/
inductive SchedulerEvent where
  | pagesJoined
  | documentSaved
deriving DecidableEq

/-- `asyncio.gather(*tasks)` over the per-page outcomes: succeeds when
every page task succeeded and otherwise re-raises a failure (modelled as
the first failing task in page order; which in-flight failure surfaces
first is a scheduling detail no claim depends on). -/
def pyGather : List (Except PyErr Unit) → Except PyErr Unit
  | [] => .ok ()
  | .error e :: _ => .error e
  | .ok _ :: rest => pyGather rest

/-- `PDFTranslator.process_translation` (lines 467-499), given the
terminal outcome of each page task (one `process_page` invocation per
page, lines 481-483): await the `asyncio.gather` barrier (line 486); on
success `save_document` (line 494) runs once, after the join; an
exception from the gather propagates out of the coroutine and the save
statement is never reached.  Returns the scheduler events in execution
order, or the propagated exception. -/
def process_translation (pageResults : List (Except PyErr Unit)) :
    Except PyErr (List SchedulerEvent) :=
  match pyGather pageResults with
  | .error e => .error e
  | .ok _ => .ok [SchedulerEvent.pagesJoined, SchedulerEvent.documentSaved]

/-- How many times a `process_translation` run saved the document. -/
def savesIn (r : Except PyErr (List SchedulerEvent)) : Nat :=
  match r with
  | .error _ => 0
  | .ok evs => evs.count SchedulerEvent.documentSaved

/-! ### Concrete values used by witnesses and counterexamples -/

/-- Observation: the response text `r` of one chat call survives the
decode step and passes `json.loads`. -/
def decodeParses (r : Str) : Bool :=
  match decode_unicode_escapes r with
  | .ok d => (json_loads d).isSome
  | .error _ => false

/-- A chat backend whose very first response is valid JSON that lacks the
`"text_fragments"` key. -/
def chatMissingKeyBackend : Str → Str → Str × Str :=
  fun _ _ => (lit "\x7b\"page_number\": 1\x7d", lit "chat-1")

/-- A chat backend every response of which is the unparsable text
"nope". -/
def chatNopeBackend : Str → Str → Str × Str := fun _ _ => (lit "nope", lit "chat-1")

/-- Fragments of a concrete two-fragment page for the C7 witness. -/
def twoPageFragments : List TextFragment :=
  [⟨lit "alpha", 1, 2, lit "bold"⟩, ⟨lit "beta", 3, 4, lit "italic"⟩]

/-- A concrete one-entry alignment response for the C7 witness. -/
def oneRespFragment : List RespFragment := [⟨some (lit "alpha"), some (lit "alef")⟩]

/-! ## Helper lemmas -/

/-- Gathering all-successful page tasks succeeds. -/
theorem pyGather_ok_of_all (rs : List (Except PyErr Unit))
    (h : (rs.all fun r => match r with | .ok _ => true | .error _ => false) = true) :
    pyGather rs = .ok () := by
  induction rs with
  | nil => rfl
  | cons a t ih =>
    rcases a with e | u
    · simp [List.all_cons] at h
    · cases u
      simp only [List.all_cons, Bool.true_and] at h
      simpa [pyGather] using ih h

/-- Gathering a task list containing a failure re-raises some failure. -/
theorem pyGather_error_of_not_all (rs : List (Except PyErr Unit))
    (h : (rs.all fun r => match r with | .ok _ => true | .error _ => false) = false) :
    ∃ e, pyGather rs = .error e := by
  induction rs with
  | nil => simp [List.all_nil] at h
  | cons a t ih =>
    rcases a with e | u
    · exact ⟨e, rfl⟩
    · cases u
      simp only [List.all_cons, Bool.true_and] at h
      simpa [pyGather] using ih h

/-- The trace of a loop run with at least one attempt of fuel records at
least one chat call. -/
theorem send_loop_trace_ne_nil (chat : Str → Str → Str × Str)
    (n : Nat) (prompt cid : Str) :
    (send_loop chat prompt cid (n + 1)).2 ≠ [] := by
  rcases hc : chat prompt cid with ⟨resp0, cid2⟩
  rcases hd : decode_unicode_escapes resp0 with e | resp
  · simp [send_loop, hc, hd]
  · rcases hj : json_loads resp with _ | d
    · rcases n with _ | m
      · simp [send_loop, hc, hd, hj]
      · rcases hs : send_loop chat correctivePrompt cid2 (m + 1) with ⟨out, rs⟩
        simp [send_loop, hc, hd, hj, hs]
    · simp [send_loop, hc, hd, hj]

/-- The retry loop records one response per chat call, never more
responses than its fuel, and every response except the last one failed
the in-loop validation (decode + `json.loads`) — the only reason the
loop makes another call. -/
theorem send_loop_spec (chat : Str → Str → Str × Str) :
    ∀ fuel prompt cid,
      (send_loop chat prompt cid fuel).2.length ≤ fuel ∧
      ((send_loop chat prompt cid fuel).2.dropLast.all fun r => !decodeParses r) = true := by
  intro fuel
  induction fuel with
  | zero => intro prompt cid; simp [send_loop]
  | succ n ih =>
    intro prompt cid
    rcases hc : chat prompt cid with ⟨resp0, cid2⟩
    rcases hd : decode_unicode_escapes resp0 with e | resp
    · simp [send_loop, hc, hd]
    · rcases hj : json_loads resp with _ | d
      · rcases n with _ | m
        · simp [send_loop, hc, hd, hj]
        · rcases hs : send_loop chat correctivePrompt cid2 (m + 1) with ⟨out, rs⟩
          have hrec := ih correctivePrompt cid2
          rw [hs] at hrec
          have hne : rs ≠ [] := by
            have hnil := send_loop_trace_ne_nil chat m correctivePrompt cid2
            rw [hs] at hnil
            simpa using hnil
          obtain ⟨b, bs, hbs⟩ := List.exists_cons_of_ne_nil hne
          subst hbs
          simp only [send_loop, hc, hd, hj, hs]
          constructor
          · simpa using Nat.succ_le_succ hrec.1
          · simp only [List.dropLast_cons₂, List.all_cons, Bool.and_eq_true]
            refine ⟨?_, by simpa using hrec.2⟩
            simp [decodeParses, hd, hj]
      · simp [send_loop, hc, hd, hj]

/-- When every received response fails the in-loop validation, the loop
uses its entire fuel and falls out returning the decoded text of the
last response as a plain value. -/
theorem send_loop_exhaust (chat : Str → Str → Str × Str) :
    ∀ fuel prompt cid,
      (((send_loop chat prompt cid (fuel + 1)).2.all fun r =>
        match decode_unicode_escapes r with
        | .ok d => (json_loads d).isNone
        | .error _ => false) = true) →
      (send_loop chat prompt cid (fuel + 1)).2.length = fuel + 1 ∧
      ∃ r s, (send_loop chat prompt cid (fuel + 1)).2.getLast? = some r ∧
        decode_unicode_escapes r = .ok s ∧ json_loads s = none ∧
        (send_loop chat prompt cid (fuel + 1)).1 = .ok (.raw s) := by
  intro fuel
  induction fuel with
  | zero =>
    intro prompt cid h
    rcases hc : chat prompt cid with ⟨resp0, cid2⟩
    rcases hd : decode_unicode_escapes resp0 with e | resp
    · simp [send_loop, hc, hd] at h
    · rcases hj : json_loads resp with _ | d
      · simp only [send_loop, hc, hd, hj]
        exact ⟨rfl, resp0, resp, by simp, hd, hj, rfl⟩
      · simp [send_loop, hc, hd, hj] at h
  | succ m ih =>
    intro prompt cid h
    rcases hc : chat prompt cid with ⟨resp0, cid2⟩
    rcases hd : decode_unicode_escapes resp0 with e | resp
    · simp [send_loop, hc, hd] at h
    · rcases hj : json_loads resp with _ | d
      · rcases hs : send_loop chat correctivePrompt cid2 (m + 1) with ⟨out, rs⟩
        simp only [send_loop, hc, hd, hj, hs] at h ⊢
        simp only [List.all_cons, Bool.and_eq_true] at h
        have hrec := ih correctivePrompt cid2 (by rw [hs]; exact h.2)
        rw [hs] at hrec
        obtain ⟨hlen, r, s, hlast, hds, hjs, hout⟩ := hrec
        have hne : rs ≠ [] := by
          intro hnil
          rw [hnil] at hlen
          simp at hlen
        obtain ⟨b, bs, hbs⟩ := List.exists_cons_of_ne_nil hne
        subst hbs
        refine ⟨by simpa using hlen, r, s, by simpa using hlast, hds, hjs, hout⟩
      · simp [send_loop, hc, hd, hj] at h

/-- A raw (un-parsed) outcome is only produced once the loop has spent
all of its fuel: failures with budget remaining always retry instead. -/
theorem send_loop_raw_full (chat : Str → Str → Str × Str) :
    ∀ fuel prompt cid s,
      (send_loop chat prompt cid fuel).1 = .ok (.raw s) →
      (send_loop chat prompt cid fuel).2.length = fuel := by
  intro fuel
  induction fuel with
  | zero => intro prompt cid s _; simp [send_loop]
  | succ n ih =>
    intro prompt cid s h
    rcases hc : chat prompt cid with ⟨resp0, cid2⟩
    rcases hd : decode_unicode_escapes resp0 with e | resp
    · simp [send_loop, hc, hd] at h
    · rcases hj : json_loads resp with _ | d
      · rcases n with _ | m
        · simp [send_loop, hc, hd, hj]
        · rcases hs : send_loop chat correctivePrompt cid2 (m + 1) with ⟨out, rs⟩
          simp only [send_loop, hc, hd, hj, hs] at h ⊢
          have := ih correctivePrompt cid2 s (by rw [hs]; exact h)
          rw [hs] at this
          simpa using this
      · simp [send_loop, hc, hd, hj] at h

/-! ## Claim theorems -/

/-- C1 (code bug): claim — for a page whose alignment response pairs all
validate, reintegration replaces each original fragment text with the
translated one and the document carries the translations.  What the code
does: the reintegration that actually runs is the inline loop of
`process_page` (lines 452-463), which zips the plain strings built on
line 197 and immediately evaluates `fragment["text_fragment"]` — a
`TypeError` in Python, since `fragment` is a `str` — so on the fully
valid aligned pair (original "Hello", translation "Bonjour") the loop
raises `TypeError`, mutates nothing, and the translated text never
reaches any fragment (the document-mutating
`reintegrate_translated_fragments` is never called by the pipeline). -/
theorem processPage_reintegration_typeError :
    process_page_step6 (extract_text_fragments_from_page [some (lit "Hello")])
        [⟨some (lit "Hello"), some (lit "Bonjour")⟩] =
      ([PyFragment.str (lit "Hello")], some PyErr.typeError) := rfl

/-- C2 (code bug): claim — a pair whose `original_text_fragment` differs
from the fragment text raises `FragmentMismatch` and leaves the fragment
unmodified.  What the code does: on such a pair (fragment "Hallo",
claimed original "Hello") the loop of `process_page` raises `TypeError`
at the `fragment["text_fragment"]` read on line 458 before any
comparison, so the mismatch `Exception` of line 459 — the intended
`FragmentMismatch` report, a distinct exception — is unreachable; the
fragment is indeed left unmodified, but by the crash. -/
theorem processPage_mismatch_check_unreachable :
    (process_page_step6 (extract_text_fragments_from_page [some (lit "Hallo")])
        [⟨some (lit "Hello"), some (lit "Bonjour")⟩] =
      ([PyFragment.str (lit "Hallo")], some PyErr.typeError)) ∧
    PyErr.typeError ≠ PyErr.mismatchError :=
  ⟨rfl, by decide⟩

/-- C3 counterexample: the claim says a missing-`text_fragments` failure
is detected on every attempt of the retry loop and triggers a retry when
the budget allows.  Against a backend whose first response is the valid
JSON object without that key, `send_page_to_llm` makes exactly one chat
call and returns the parsed object as a success — the key is never
inspected inside the loop and no retry happens. -/
theorem alignment_missing_key_not_retried :
    (send_page_to_llm chatMissingKeyBackend (lit "prompt")).2.length = 1 ∧
    (send_page_to_llm chatMissingKeyBackend (lit "prompt")).1 =
      .ok (.parsed (Json.obj [(lit "page_number", Json.num (lit "1"))])) ∧
    pyContains (Json.obj [(lit "page_number", Json.num (lit "1"))]) textFragmentsKey =
      .ok false :=
  ⟨rfl, rfl, rfl⟩

/-- C3 (amended): the retry loop of `send_page_to_llm` validates only
JSON-parseability, but does so on every attempt: every response that was
followed by another chat call had failed the decode-and-`json.loads`
check, and a raw (exhausted) outcome is handed back only after the full
`max_retries + 1` attempts, so a parse failure with budget remaining
always retries.  The `text_fragments`-key check is not part of the loop:
it runs once, in `parse_llm_response` after the client returns, where a
parse failure (`Exception`, line 398) and a missing key (`KeyError`,
line 404) are reported as distinct exceptions; a missing key never
triggers a retry. -/
theorem alignment_validation_split :
    (∀ chat : Str → Str → Str × Str, ∀ p0 : Str,
      ((send_page_to_llm chat p0).2.dropLast.all fun r => !decodeParses r) = true) ∧
    (∀ chat : Str → Str → Str × Str, ∀ p0 s,
      (send_page_to_llm chat p0).1 = .ok (.raw s) →
      (send_page_to_llm chat p0).2.length = max_retries + 1) ∧
    (∀ s : Str, (pyStrip s).isEmpty = false → json_loads s = none →
      parse_llm_response s = .error .decodeError) ∧
    (∀ s : Str, ∀ d : Json, (pyStrip s).isEmpty = false → json_loads s = some d →
      pyContains d textFragmentsKey = .ok false →
      parse_llm_response s = .error .keyError) ∧
    PyErr.decodeError ≠ PyErr.keyError := by
  refine ⟨?_, ?_, ?_, ?_, by decide⟩
  · intro chat p0
    exact (send_loop_spec chat (max_retries + 1) p0 []).2
  · intro chat p0 s h
    exact send_loop_raw_full chat (max_retries + 1) p0 [] s h
  · intro s h1 h2
    simp [parse_llm_response, h1, h2]
  · intro s d h1 h2 h3
    simp [parse_llm_response, h1, h2, h3]

/-- Witness for C3 (amended): `parse_llm_response` reports the two
validation failures distinctly on concrete responses — unparsable text
raises the decode `Exception`, a valid JSON object without the
`"text_fragments"` key raises `KeyError`. -/
theorem alignment_validation_split_witness :
    parse_llm_response (lit "not json") = .error .decodeError ∧
    parse_llm_response (lit "\x7b\"page_number\": 1\x7d") = .error .keyError :=
  ⟨alignment_validation_split.2.2.1 (lit "not json") rfl rfl,
   alignment_validation_split.2.2.2.1 (lit "\x7b\"page_number\": 1\x7d")
     (Json.obj [(lit "page_number", Json.num (lit "1"))]) rfl rfl rfl⟩

/-- C4: when every attempt's response fails validation (it decodes but
`json.loads` rejects it), `send_page_to_llm` makes all `max_retries + 1`
calls and then hands the decoded text of the last invalid response back
to its caller as an ordinary return value — the `raise` of line 314 is
commented out — preserving that raw text for diagnostics. -/
theorem exhausted_returns_raw_response (chat : Str → Str → Str × Str) (p0 : Str)
    (h : ((send_page_to_llm chat p0).2.all fun r =>
      match decode_unicode_escapes r with
      | .ok d => (json_loads d).isNone
      | .error _ => false) = true) :
    (send_page_to_llm chat p0).2.length = max_retries + 1 ∧
    ∃ r s, (send_page_to_llm chat p0).2.getLast? = some r ∧
      decode_unicode_escapes r = .ok s ∧ json_loads s = none ∧
      (send_page_to_llm chat p0).1 = .ok (.raw s) :=
  send_loop_exhaust chat max_retries p0 [] h

/-- Witness for C4: against the always-invalid backend all three
attempts happen and the raw last response is returned, not raised. -/
theorem exhausted_returns_raw_response_witness :
    (send_page_to_llm chatNopeBackend (lit "p")).2.length = max_retries + 1 ∧
    ∃ r s, (send_page_to_llm chatNopeBackend (lit "p")).2.getLast? = some r ∧
      decode_unicode_escapes r = .ok s ∧ json_loads s = none ∧
      (send_page_to_llm chatNopeBackend (lit "p")).1 = .ok (.raw s) :=
  exhausted_returns_raw_response chatNopeBackend (lit "p") rfl

/-- C5: for every chat backend and initial prompt the alignment client
terminates (it is a total function), makes at most `max_retries + 1 = 3`
chat calls per page (the trace records one response per call), and makes
no further call once a response passes validation or the budget is
spent: every response except the final one failed the in-loop
validation. -/
theorem alignment_retry_budget (chat : Str → Str → Str × Str) (p0 : Str) :
    max_retries + 1 = 3 ∧
    (send_page_to_llm chat p0).2.length ≤ max_retries + 1 ∧
    ((send_page_to_llm chat p0).2.dropLast.all fun r => !decodeParses r) = true :=
  ⟨rfl, (send_loop_spec chat (max_retries + 1) p0 []).1,
    (send_loop_spec chat (max_retries + 1) p0 []).2⟩

/-- C6: the built TranslationRequest keeps the fragment list 1:1 with the
input — same length, entry i's `original_text_fragment` is input fragment
i, and every `translated_text_fragment` is the empty placeholder. -/
theorem jsonify_alignment_invariant (page_number : Nat) (oc tr : Str)
    (frags : List Str) :
    (jsonify_page_fragments page_number oc tr frags).page_data.text_fragments.length
      = frags.length ∧
    ∀ i : Nat,
      ((jsonify_page_fragments page_number oc tr frags).page_data.text_fragments[i]?.map
          (fun f => f.original_text_fragment)) = frags[i]? ∧
      ((jsonify_page_fragments page_number oc tr frags).page_data.text_fragments[i]?.map
          (fun f => f.translated_text_fragment)) = frags[i]?.map (fun _ => ([] : Str)) := by
  refine ⟨by simp [jsonify_page_fragments], fun i => ?_⟩
  simp only [jsonify_page_fragments, List.getElem?_map]
  cases frags[i]? <;> simp

/-- C7: when the response fragment list is shorter than the page's
fragment list, reintegration processes only the overlapping prefix (zip
semantics): the page keeps its fragment count, every fragment at an
index at or beyond the response length is left exactly as it was, and no
exception is raised for the missing entries (the function is total). -/
theorem reintegration_zip_truncation (fragments : List TextFragment)
    (respFrags : List RespFragment)
    (h : respFrags.length < fragments.length) :
    (reintegrate_translated_fragments fragments respFrags).length = fragments.length ∧
    ∀ i : Nat, respFrags.length ≤ i →
      (reintegrate_translated_fragments fragments respFrags)[i]? = fragments[i]? := by
  constructor
  · simp only [reintegrate_translated_fragments, List.length_append, List.length_map,
      List.length_zip, List.length_drop]
    omega
  · intro i hi
    have key : ∀ pre : List TextFragment, pre.length = respFrags.length →
        (pre ++ fragments.drop respFrags.length)[i]? = fragments[i]? := by
      intro pre hl
      rw [List.getElem?_append_right (by rw [hl]; exact hi), hl, List.getElem?_drop]
      congr 1
      omega
    exact key _ (by simp [List.length_zip]; omega)

/-- Witness for C7: reintegrating a one-entry response into a
two-fragment page keeps both fragments, the trailing fragment exactly as
it was. -/
theorem reintegration_zip_truncation_witness :
    (reintegrate_translated_fragments twoPageFragments oneRespFragment).length = 2 ∧
    (reintegrate_translated_fragments twoPageFragments oneRespFragment)[1]? =
      some ⟨lit "beta", 3, 4, lit "italic"⟩ :=
  ⟨((reintegration_zip_truncation twoPageFragments oneRespFragment (by decide)).1).trans rfl,
   (((reintegration_zip_truncation twoPageFragments oneRespFragment (by decide)).2) 1
      (by decide)).trans rfl⟩

/-- C8: in every run of `process_translation`, when all page tasks
succeed the document is saved exactly once and only after the gather
join, and when any page task fails the propagated exception prevents the
save from ever happening. -/
theorem scheduler_single_save_after_join (pageResults : List (Except PyErr Unit)) :
    ((pageResults.all fun r => match r with | .ok _ => true | .error _ => false) = true →
      process_translation pageResults =
        .ok [SchedulerEvent.pagesJoined, SchedulerEvent.documentSaved] ∧
      savesIn (process_translation pageResults) = 1) ∧
    ((pageResults.all fun r => match r with | .ok _ => true | .error _ => false) = false →
      savesIn (process_translation pageResults) = 0) := by
  constructor
  · intro h
    have hg := pyGather_ok_of_all pageResults h
    refine ⟨by simp [process_translation, hg], ?_⟩
    simp [process_translation, hg, savesIn]
  · intro h
    obtain ⟨e, hg⟩ := pyGather_error_of_not_all pageResults h
    simp [process_translation, hg, savesIn]

/-- Witness for C8: a one-page all-successful run saves exactly once
after the join; a run with a failed page never saves. -/
theorem scheduler_single_save_after_join_witness :
    (process_translation [.ok ()] =
        .ok [SchedulerEvent.pagesJoined, SchedulerEvent.documentSaved] ∧
      savesIn (process_translation [.ok ()]) = 1) ∧
    savesIn (process_translation [.error .typeError]) = 0 :=
  ⟨(scheduler_single_save_after_join [.ok ()]).1 rfl,
   (scheduler_single_save_after_join [.error .typeError]).2 rfl⟩

/-! ## Normalization lemmas (towards C10) -/

/-- A whitespace character always opens a fresh chunk. -/
theorem splitStep_space (c : Nat) (acc : List Str) (h : pyIsSpace c = true) :
    splitStep c acc = [] :: acc := by
  simp [splitStep, h]

/-- A non-whitespace character joins the current chunk. -/
theorem splitStep_nonspace (c : Nat) (a : Str) (as : List Str)
    (h : pyIsSpace c = false) :
    splitStep c (a :: as) = (c :: a) :: as := by
  simp [splitStep, h]

/-- One chunking step never empties the accumulator. -/
theorem splitStep_ne_nil (c : Nat) (acc : List Str) : splitStep c acc ≠ [] := by
  rcases acc with _ | ⟨w, ws⟩ <;> by_cases h : pyIsSpace c <;> simp [splitStep, h]

/-- The chunk list of the empty string. -/
theorem splitChunks_nil : splitChunks [] = [[]] := rfl

/-- Chunking peels one character at a time. -/
theorem splitChunks_cons (c : Nat) (t : Str) :
    splitChunks (c :: t) = splitStep c (splitChunks t) := rfl

/-- The chunk list is never empty. -/
theorem splitChunks_ne_nil (t : Str) : splitChunks t ≠ [] := by
  cases t with
  | nil => simp [splitChunks_nil]
  | cons c r => exact splitStep_ne_nil c (splitChunks r)

/-- Prepending a whitespace-free word extends the first chunk. -/
theorem splitChunks_append_word :
    ∀ w : Str, (∀ x ∈ w, pyIsSpace x = false) →
      ∀ s a as, splitChunks s = a :: as → splitChunks (w ++ s) = (w ++ a) :: as := by
  intro w
  induction w with
  | nil => intro _ s a as h; simpa using h
  | cons c w ih =>
    intro hw s a as h
    have hc : pyIsSpace c = false := hw c (by simp)
    have hrec := ih (fun x hx => hw x (by simp [hx])) s a as h
    rw [List.cons_append, splitChunks_cons, hrec, splitStep_nonspace c (w ++ a) as hc,
      List.cons_append]

/-- A leading space contributes one empty chunk. -/
theorem splitChunks_space_cons (t : Str) :
    splitChunks (32 :: t) = [] :: splitChunks t := by
  rw [splitChunks_cons, splitStep_space 32 (splitChunks t) (by decide)]

/-- Every character of every chunk is a non-whitespace character of the
input. -/
theorem splitChunks_mem_sound :
    ∀ (t w : Str), w ∈ splitChunks t → ∀ c ∈ w, pyIsSpace c = false ∧ c ∈ t := by
  intro t
  induction t with
  | nil =>
    intro w hw c hc
    rw [splitChunks_nil] at hw
    simp at hw
    subst hw
    simp at hc
  | cons d t ih =>
    intro w hw c hc
    rw [splitChunks_cons] at hw
    by_cases hd : pyIsSpace d = true
    · rw [splitStep_space d _ hd] at hw
      rcases List.mem_cons.mp hw with h1 | h1
      · subst h1; simp at hc
      · have h2 := ih w h1 c hc
        exact ⟨h2.1, List.mem_cons_of_mem d h2.2⟩
    · replace hd : pyIsSpace d = false := by simpa using hd
      obtain ⟨a, as, has⟩ := List.exists_cons_of_ne_nil (splitChunks_ne_nil t)
      rw [has, splitStep_nonspace d a as hd] at hw
      rcases List.mem_cons.mp hw with h1 | h1
      · subst h1
        rcases List.mem_cons.mp hc with h2 | h2
        · subst h2; exact ⟨hd, by simp⟩
        · have h3 := ih a (by rw [has]; simp) c h2
          exact ⟨h3.1, List.mem_cons_of_mem d h3.2⟩
      · have h3 := ih w (by rw [has]; simp [h1]) c hc
        exact ⟨h3.1, List.mem_cons_of_mem d h3.2⟩

/-- Every word `pySplit` produces is nonempty and whitespace-free. -/
theorem pySplit_words_nice (t : Str) :
    ∀ w ∈ pySplit t, w ≠ [] ∧ ∀ c ∈ w, pyIsSpace c = false := by
  intro w hw
  unfold pySplit at hw
  rw [List.mem_filter] at hw
  have hne : w ≠ [] := by
    intro hnil
    rw [hnil] at hw
    simp at hw
  exact ⟨hne, fun c hc => (splitChunks_mem_sound t w hw.1 c hc).1⟩

/-- Splitting a single whitespace-free nonempty word yields that word. -/
theorem pySplit_single (w : Str) (hw : w ≠ [])
    (hns : ∀ c ∈ w, pyIsSpace c = false) : pySplit w = [w] := by
  have h := splitChunks_append_word w hns [] [] [] splitChunks_nil
  simp only [List.append_nil] at h
  unfold pySplit
  rw [h, List.filter_cons]
  have hne : (!w.isEmpty) = true := by
    cases w with
    | nil => exact absurd rfl hw
    | cons a b => rfl
  rw [if_pos hne]
  rfl

/-- A word followed by a space splits into the word and the split of the
rest. -/
theorem pySplit_word_cons (w : Str) (hw : w ≠ [])
    (hns : ∀ c ∈ w, pyIsSpace c = false) (t : Str) :
    pySplit (w ++ 32 :: t) = w :: pySplit t := by
  have h := splitChunks_append_word w hns (32 :: t) [] (splitChunks t)
    (splitChunks_space_cons t)
  rw [List.append_nil] at h
  unfold pySplit
  rw [h, List.filter_cons]
  have hne : (!w.isEmpty) = true := by
    cases w with
    | nil => exact absurd rfl hw
    | cons a b => rfl
  rw [if_pos hne]

/-- Joining two or more words unfolds one cons. -/
theorem joinSp_cons_cons (w v : Str) (vs : List Str) :
    joinSp (w :: v :: vs) = w ++ 32 :: joinSp (v :: vs) := rfl

/-- The join of words starting with a nonempty word is nonempty. -/
theorem joinSp_ne_nil (w : Str) (ws : List Str) (hw : w ≠ []) :
    joinSp (w :: ws) ≠ [] := by
  rcases ws with _ | ⟨v, vs⟩
  · simpa [joinSp] using hw
  · rw [joinSp_cons_cons]
    rcases w with _ | ⟨a, t⟩
    · exact absurd rfl hw
    · simp

/-- Splitting the space-join of nonempty whitespace-free words recovers
exactly those words. -/
theorem pySplit_joinSp :
    ∀ ws : List Str, (∀ w ∈ ws, w ≠ [] ∧ ∀ c ∈ w, pyIsSpace c = false) →
      pySplit (joinSp ws) = ws := by
  intro ws
  induction ws with
  | nil => intro _; rfl
  | cons w ws ih =>
    intro h
    rcases ws with _ | ⟨v, vs⟩
    · exact pySplit_single w (h w (by simp)).1 (h w (by simp)).2
    · rw [joinSp_cons_cons,
        pySplit_word_cons w (h w (by simp)).1 (h w (by simp)).2,
        ih (fun u hu => h u (by simp [hu]))]

/-- Every character of a space-join is the space or a character of some
word. -/
theorem mem_joinSp :
    ∀ (ws : List Str) (c : Nat), c ∈ joinSp ws → c = 32 ∨ ∃ w ∈ ws, c ∈ w := by
  intro ws
  induction ws with
  | nil => intro c hc; simp [joinSp] at hc
  | cons w ws ih =>
    intro c hc
    rcases ws with _ | ⟨v, vs⟩
    · exact Or.inr ⟨w, by simp, hc⟩
    · rw [joinSp_cons_cons] at hc
      rcases List.mem_append.mp hc with h1 | h1
      · exact Or.inr ⟨w, by simp, h1⟩
      · rcases List.mem_cons.mp h1 with h2 | h2
        · exact Or.inl h2
        · rcases ih c h2 with h3 | ⟨u, hu, hcu⟩
          · exact Or.inl h3
          · exact Or.inr ⟨u, by simp [hu], hcu⟩

/-- The join of nonempty whitespace-free words is empty or starts with a
non-whitespace character. -/
theorem joinSp_head_nonspace (ws : List Str)
    (h : ∀ w ∈ ws, w ≠ [] ∧ ∀ c ∈ w, pyIsSpace c = false) :
    joinSp ws = [] ∨ ∃ c r, joinSp ws = c :: r ∧ pyIsSpace c = false := by
  rcases ws with _ | ⟨w, ws⟩
  · exact Or.inl rfl
  · obtain ⟨a, t, hat⟩ := List.exists_cons_of_ne_nil (h w (by simp)).1
    have ha : pyIsSpace a = false := (h w (by simp)).2 a (by rw [hat]; simp)
    rcases ws with _ | ⟨v, vs⟩
    · exact Or.inr ⟨a, t, by rw [show joinSp [w] = w from rfl, hat], ha⟩
    · refine Or.inr ⟨a, t ++ 32 :: joinSp (v :: vs), ?_, ha⟩
      rw [joinSp_cons_cons, hat, List.cons_append]

/-- The reverse of such a join is empty or starts with a non-whitespace
character (the join ends in a word character). -/
theorem joinSp_rev_head_nonspace :
    ∀ ws : List Str, (∀ w ∈ ws, w ≠ [] ∧ ∀ c ∈ w, pyIsSpace c = false) →
      (joinSp ws).reverse = [] ∨
        ∃ c r, (joinSp ws).reverse = c :: r ∧ pyIsSpace c = false := by
  intro ws
  induction ws with
  | nil => exact fun _ => Or.inl rfl
  | cons w ws ih =>
    intro h
    rcases ws with _ | ⟨v, vs⟩
    · have hwne : w.reverse ≠ [] := by
        intro hrev
        exact (h w (by simp)).1 (by simpa using hrev)
      obtain ⟨a, t, hat⟩ := List.exists_cons_of_ne_nil hwne
      refine Or.inr ⟨a, t, by rw [show joinSp [w] = w from rfl]; exact hat, ?_⟩
      have hmem : a ∈ w.reverse := by rw [hat]; simp
      exact (h w (by simp)).2 a (by simpa using hmem)
    · have hrec := ih (fun u hu => h u (by simp [hu]))
      rcases hrec with h1 | ⟨c, r, hcr, hc⟩
      · exfalso
        exact joinSp_ne_nil v vs (h v (by simp)).1 (by simpa using h1)
      · refine Or.inr ⟨c, r ++ 32 :: w.reverse, ?_, hc⟩
        rw [joinSp_cons_cons, List.reverse_append, List.reverse_cons, hcr]
        simp

/-- Stripping the space-join of nonempty whitespace-free words is a
no-op. -/
theorem pyStrip_joinSp (ws : List Str)
    (h : ∀ w ∈ ws, w ≠ [] ∧ ∀ c ∈ w, pyIsSpace c = false) :
    pyStrip (joinSp ws) = joinSp ws := by
  unfold pyStrip
  have h1 : (joinSp ws).dropWhile pyIsSpace = joinSp ws := by
    rcases joinSp_head_nonspace ws h with h1 | ⟨c, r, hcr, hc⟩
    · rw [h1]; rfl
    · rw [hcr, List.dropWhile_cons, if_neg (by simp [hc])]
  rw [h1]
  have h2 : (joinSp ws).reverse.dropWhile pyIsSpace = (joinSp ws).reverse := by
    rcases joinSp_rev_head_nonspace ws h with h2 | ⟨c, r, hcr, hc⟩
    · rw [h2]; rfl
    · rw [hcr, List.dropWhile_cons, if_neg (by simp [hc])]
  rw [h2, List.reverse_reverse]

/-- The normalization equals the plain space-join of the split words of
the cleaned text: the final strip and the emptiness fallback are
no-ops. -/
theorem preprocess_text_eq (x : Str) :
    preprocess_text x =
      joinSp (pySplit (pyReplaceCharEmpty 8226 (pyReplaceCharEmpty 124 x))) := by
  unfold preprocess_text
  have hfold : unwanted_characters.foldl (fun acc c => pyReplaceCharEmpty c acc) x =
      pyReplaceCharEmpty 8226 (pyReplaceCharEmpty 124 x) := rfl
  simp only [hfold]
  have hnice := pySplit_words_nice (pyReplaceCharEmpty 8226 (pyReplaceCharEmpty 124 x))
  rw [pyStrip_joinSp _ hnice]
  by_cases he : (joinSp (pySplit (pyReplaceCharEmpty 8226 (pyReplaceCharEmpty 124 x)))).isEmpty = true
  · rw [if_pos he]
    have : joinSp (pySplit (pyReplaceCharEmpty 8226 (pyReplaceCharEmpty 124 x))) = [] := by
      simpa using he
    rw [this]
  · rw [if_neg he]

/-- Characters surviving a single-character removal are input characters
different from the removed one. -/
theorem mem_pyReplaceCharEmpty (c u : Nat) (t : Str)
    (h : c ∈ pyReplaceCharEmpty u t) : c ∈ t ∧ c ≠ u := by
  unfold pyReplaceCharEmpty at h
  rw [List.mem_filter] at h
  exact ⟨h.1, by simpa using h.2⟩

/-- No unwanted character survives normalization. -/
theorem preprocess_char_facts (x : Str) (c : Nat) (h : c ∈ preprocess_text x) :
    c ≠ 124 ∧ c ≠ 8226 := by
  rw [preprocess_text_eq] at h
  rcases mem_joinSp _ c h with h1 | ⟨w, hw, hcw⟩
  · subst h1; exact ⟨by decide, by decide⟩
  · have hchunk : w ∈ splitChunks (pyReplaceCharEmpty 8226 (pyReplaceCharEmpty 124 x)) := by
      unfold pySplit at hw
      exact (List.mem_filter.mp hw).1
    have hc : c ∈ pyReplaceCharEmpty 8226 (pyReplaceCharEmpty 124 x) :=
      (splitChunks_mem_sound _ w hchunk c hcw).2
    have h1 := mem_pyReplaceCharEmpty c 8226 _ hc
    have h2 := mem_pyReplaceCharEmpty c 124 _ h1.1
    exact ⟨h2.2, h1.2⟩

/-- Cleaning an already normalized text changes nothing. -/
theorem clean_preprocess (x : Str) :
    pyReplaceCharEmpty 8226 (pyReplaceCharEmpty 124 (preprocess_text x)) =
      preprocess_text x := by
  have step1 : pyReplaceCharEmpty 124 (preprocess_text x) = preprocess_text x := by
    unfold pyReplaceCharEmpty
    rw [List.filter_eq_self]
    intro a ha
    simpa using (preprocess_char_facts x a ha).1
  rw [step1]
  unfold pyReplaceCharEmpty
  rw [List.filter_eq_self]
  intro a ha
  simpa using (preprocess_char_facts x a ha).2

/-- C10: normalization is idempotent — for every string,
`preprocess_text (preprocess_text x) = preprocess_text x`. -/
theorem preprocess_text_idempotent (x : Str) :
    preprocess_text (preprocess_text x) = preprocess_text x := by
  conv_lhs => rw [preprocess_text_eq]
  rw [clean_preprocess]
  rw [preprocess_text_eq x]
  rw [pySplit_joinSp _ (pySplit_words_nice _)]

/-- C9: `decode_unicode_escapes` is not the identity on already-decoded
non-ASCII text and not idempotent: the single character "é" (U+00E9,
which contains no escape sequence) is sent to "Ã©" — its UTF-8 bytes
re-read as Latin-1 — and a second application moves the result again. -/
theorem decode_unicode_escapes_mangles_utf8 :
    decode_unicode_escapes (lit "é") = .ok (lit "Ã©") ∧
    lit "Ã©" ≠ lit "é" ∧
    decode_unicode_escapes (lit "Ã©") = .ok (lit "Ã\x83Â©") ∧
    lit "Ã\x83Â©" ≠ lit "Ã©" :=
  ⟨rfl, by decide, rfl, by decide⟩

end SexyLoggerModel
